import Mathlib

/-!
# Verification of the `ControlBase` rule-modifier matching engine

Shallow embedding of `src/proxy/ControlBase.cc` (Apache Traffic Server fork):
the modifier variants (`TimeMod`, `PortMod`, `IPortMod`, `SrcIPMod`, `SchemeMod`,
`MethodMod`, `PrefixMod`, `SuffixMod`, `TagMod`, `InternalMod`), the modifier
set operations (`CheckModifiers`, `findModOfType`, `Print`) and the line
processor (`ProcessModifiers`).

C strings are modelled as `List Char` (no embedded NUL bytes), C `int` /
`time_t` as `Int`, and the out-parameter error convention
(`make(value, &error)` returning a possibly-null pointer) as
`Except (List Char) α`.  External collaborators that are not part of this
fragment's sources (the well-known-token resolver, the IP range parser, the
local-time conversion, `MATCHER_MAX_TOKENS`) are modelled from the spec and
marked as such.
-/

/-- Convenience: the character list of a string literal (C strings are
modelled as `List Char`). -/
def strL (s : String) : List Char := s.toList

/-- `strcasecmp(a, b) == 0`: full case-insensitive equality, byte-wise via
ASCII `tolower` (Lean's `Char.toLower` agrees with C `tolower` in the default
locale on ASCII input). -/
def ciEq (a b : List Char) : Bool :=
  a.map Char.toLower == b.map Char.toLower

/-- `strncasecmp(pat, s, pat.length) == 0` for a NUL-terminated `s`: `s`
starts (case-insensitively) with `pat`.  If `s` is shorter than `pat` the C
comparison hits the NUL terminator and fails. -/
def ciStartsWith (pat s : List Char) : Bool :=
  pat.length ≤ s.length && ciEq (s.take pat.length) pat

/-- C `isspace` in the default locale (the whitespace characters skipped by
`sscanf`'s `%d` / `%u` conversions). -/
def isWS (c : Char) : Bool :=
  c == ' ' || c == '\t' || c == '\n' || c == '\r' || c == '\x0b' || c == '\x0c'

/-- Numeric value of a (non-empty) digit string, most significant first. -/
def digitsVal (ds : List Char) : Nat :=
  ds.foldl (fun a c => 10 * a + (c.toNat - 48)) 0

/-- Greedy run of decimal digits at the head of the input; fails if there is
none.  Returns the value and the unconsumed remainder. -/
def parseDigits (s : List Char) : Option (Nat × List Char) :=
  let ds := s.takeWhile Char.isDigit
  if ds = [] then none else some (digitsVal ds, s.dropWhile Char.isDigit)

/-- One `sscanf` `%d` conversion: skip whitespace, optional sign, then a
non-empty digit run.  (Also models `%u`, which in C is likewise performed by
`strtoul` with an optional sign.)  Overflow of the C `int` is not modelled:
every value the claims quantify over is small. -/
def parseIntArg (s : List Char) : Option (Int × List Char) :=
  match s.dropWhile isWS with
  | [] => none
  | c :: r =>
    if c = '-' then (parseDigits r).map (fun p => (-(p.1 : Int), p.2))
    else if c = '+' then (parseDigits r).map (fun p => ((p.1 : Int), p.2))
    else (parseDigits (c :: r)).map (fun p => ((p.1 : Int), p.2))

/-- Splitter core for the ATS `Tokenizer`: cut the input at every occurrence
of `c`, accumulating the current chunk in reverse. -/
def splitAcc (c : Char) (cur : List Char) : List Char → List (List Char)
  | [] => [cur.reverse]
  | x :: xs =>
    if x = c then cur.reverse :: splitAcc c [] xs
    else splitAcc c (x :: cur) xs

/-- ATS `Tokenizer` with a one-character delimiter set and default flags
(`SHARE_TOKS`, empty tokens not allowed): consecutive delimiters count as
one, leading/trailing delimiters are ignored, and `num_tok` is the number of
non-empty chunks. -/
def tokenize (c : Char) (s : List Char) : List (List Char) :=
  (splitAcc c [] s).filter (fun t => t ≠ [])

-- ---------------------------------------------------------------------------
-- Modifier type tags (ControlBase::Modifier::Type in ControlBase.h)
-- ---------------------------------------------------------------------------

/-- `ControlBase::Modifier::Type`.  `PREFIX0` renders the source's `PREFIX`
tag (renamed for tooling reasons only). -/
inductive ModType where
  | TIME
  | PORT
  | IPORT
  | SCHEME
  | METHOD
  | PREFIX0
  | SUFFIX
  | SRC_IP
  | TAG
  | INTERNAL
  | INVALID
deriving DecidableEq

-- ---------------------------------------------------------------------------
-- Request facts (HttpRequestData, external read-only view)
-- ---------------------------------------------------------------------------

/-- The header-dependent accessors of the request (`req->hdr->...`):
`port_get()`, `url_get()->scheme_get_wksidx()`, `method_get()`,
`url_get()->path_get()`.  `path` is the URL path without its leading slash,
as `path_get` returns it. -/
structure HdrView where
  port : Int
  scheme_wksidx : Int
  method : List Char
  path : List Char
deriving DecidableEq

/-- `HttpRequestData`, the read-only request-facts view consumed by the
checks.  `hdr = none` models a null header pointer, `tag = none` a null tag
pointer.  `tm_hour`/`tm_min`/`tm_sec` are the local broken-down wall-clock
time of `xact_start` as produced by the external `ink_localtime_r`
conversion (which accounts for daylight saving); the conversion itself is
outside this fragment, so the request carries its result. -/
structure HttpRequestData where
  hdr : Option HdrView
  tag : Option (List Char)
  internal_txn : Bool
  incoming_port : Int
  src_ip : Nat
  tm_hour : Int
  tm_min : Int
  tm_sec : Int
deriving DecidableEq

/-- `req->hdr->port_get()`.  A null `hdr` would be a dereference of a null
pointer in C; it is unreachable from `CheckModifiers`, which returns early,
so the default value is irrelevant. -/
def HttpRequestData.port_get (r : HttpRequestData) : Int :=
  (r.hdr.map HdrView.port).getD 0

/-- `req->hdr->url_get()->scheme_get_wksidx()` (same null-pointer remark). -/
def HttpRequestData.scheme_get_wksidx (r : HttpRequestData) : Int :=
  (r.hdr.map HdrView.scheme_wksidx).getD 0

/-- `req->hdr->method_get()` (same null-pointer remark). -/
def HttpRequestData.method_get (r : HttpRequestData) : List Char :=
  (r.hdr.map HdrView.method).getD []

/-- `req->hdr->url_get()->path_get()` (same null-pointer remark). -/
def HttpRequestData.path_get (r : HttpRequestData) : List Char :=
  (r.hdr.map HdrView.path).getD []

/-- Lines 107–111 of `TimeMod::check`: the request's transaction start time
converted to local wall-clock seconds since midnight,
`tm_hour*(60*60) + tm_min*60 + tm_sec`. -/
def localTimeOfDay (req : HttpRequestData) : Int :=
  req.tm_hour * (60 * 60) + req.tm_min * 60 + req.tm_sec

-- ---------------------------------------------------------------------------
-- TimeMod
-- ---------------------------------------------------------------------------

/-- `TimeMod`: stored bounds in seconds since midnight (`time_t` fields). -/
structure TimeMod where
  start_time : Int
  end_time : Int
deriving DecidableEq

/-- The two `sscanf` attempts inside `timeOfDayToSeconds`: first
`"%d:%d:%d"`, and on failure `"%d:%d"` (the unassigned `sec` keeps its
initial value `0`).  Literal `:` in the format matches exactly one input
colon; trailing unconsumed input is ignored, as with `sscanf`. -/
def scanHMS (s : List Char) : Option (Int × Int × Int) :=
  match parseIntArg s with
  | none => none
  | some (h, r1) =>
    match r1 with
    | ':' :: r2 =>
      match parseIntArg r2 with
      | none => none
      | some (mn, r3) =>
        match r3 with
        | ':' :: r4 =>
          match parseIntArg r4 with
          | none => some (h, mn, 0)
          | some (sc, _) => some (h, mn, sc)
        | _ => some (h, mn, 0)
    | _ => none

/-- `TimeMod::timeOfDayToSeconds` (lines 140–173): scan `HH:MM[:SS]`, then
range-check hour/minute/second in source order and accumulate
`((hour*60)+min)*60+sec`. -/
def timeOfDayToSeconds (time_str : List Char) : Except (List Char) Int :=
  match scanHMS time_str with
  | none => .error (strL "Malformed time specified")
  | some (hour, mn, sc) =>
    if ¬(0 ≤ hour ∧ hour ≤ 23) then .error (strL "Illegal hour specification")
    else if ¬(0 ≤ mn ∧ mn ≤ 59) then .error (strL "Illegal minute specification")
    else if ¬(0 ≤ sc ∧ sc ≤ 59) then .error (strL "Illegal second specification")
    else .ok ((hour * 60 + mn) * 60 + sc)

/-- `TimeMod::make` (lines 115–133): tokenize on `-`; one token means no end
time, more than two a malformed range; otherwise convert both sides.  (With
zero tokens — an empty or all-dash value — the C code hands `sscanf` a null
token pointer; that case is unreachable from configuration input and is
modelled by scanning the empty token, which fails with "Malformed time
specified".) -/
def TimeMod.make (value : List Char) : Except (List Char) TimeMod :=
  let toks := tokenize '-' value
  if toks.length = 1 then .error (strL "End time not specified")
  else if toks.length > 2 then .error (strL "Malformed time range")
  else
    match timeOfDayToSeconds (toks.getD 0 []) with
    | .error e => .error e
    | .ok s =>
      match timeOfDayToSeconds (toks.getD 1 []) with
      | .error e => .error e
      | .ok e2 => .ok ⟨s, e2⟩

/-- `TimeMod::check` (lines 104–113): inclusive range test against the local
wall-clock seconds-since-midnight of the transaction start. -/
def TimeMod.check (m : TimeMod) (req : HttpRequestData) : Bool :=
  let timeOfDay := localTimeOfDay req
  decide (m.start_time ≤ timeOfDay ∧ timeOfDay ≤ m.end_time)

-- ---------------------------------------------------------------------------
-- PortMod / IPortMod
-- ---------------------------------------------------------------------------

/-- `PortMod`: inclusive port range (`int` fields). -/
structure PortMod where
  start_port : Int
  end_port : Int
deriving DecidableEq

/-- `PortMod::make` (lines 209–236): tokenize on `-`; more than two tokens is
a malformed range; a single value sets `end = start`; a two-token range
requires `end ≥ start`.  (Zero tokens again means a null token pointer in C,
modelled as scanning the empty token: "Invalid start port".) -/
def PortMod.make (value : List Char) : Except (List Char) PortMod :=
  let toks := tokenize '-' value
  if toks.length > 2 then .error (strL "Malformed Range")
  else
    match parseIntArg (toks.getD 0 []) with
    | none => .error (strL "Invalid start port")
    | some (sp, _) =>
      if toks.length = 2 then
        match parseIntArg (toks.getD 1 []) with
        | none => .error (strL "Invalid end port")
        | some (ep, _) =>
          if ep < sp then .error (strL "Malformed Range: end port < start port")
          else .ok ⟨sp, ep⟩
      else .ok ⟨sp, sp⟩

/-- `PortMod::check` (lines 202–207): inclusive range test against
`req->hdr->port_get()`. -/
def PortMod.check (m : PortMod) (req : HttpRequestData) : Bool :=
  let port := req.port_get
  decide (m.start_port ≤ port ∧ port ≤ m.end_port)

/-- `IPortMod`: exact inbound (proxy listening) port. -/
structure IPortMod where
  _port : Int
deriving DecidableEq

/-- `IPortMod::make` (lines 271–283): a single `%u` scan. -/
def IPortMod.make (value : List Char) : Except (List Char) IPortMod :=
  match parseIntArg value with
  | some (p, _) => .ok ⟨p⟩
  | none => .error (strL "Invalid incoming port")

/-- `IPortMod::check` (lines 265–269). -/
def IPortMod.check (m : IPortMod) (req : HttpRequestData) : Bool :=
  decide (req.incoming_port = m._port)

-- ---------------------------------------------------------------------------
-- SrcIPMod
-- ---------------------------------------------------------------------------

/-- Dotted-quad IPv4 parser used by the modelled `ExtractIpRange`: four
decimal fields in 0–255 joined into a host-order 32-bit value. -/
def parseIPv4 (s : List Char) : Option Nat :=
  match tokenize '.' s with
  | [a, b, c, d] =>
    match parseDigits a, parseDigits b, parseDigits c, parseDigits d with
    | some (va, []), some (vb, []), some (vc, []), some (vd, []) =>
      if va ≤ 255 ∧ vb ≤ 255 ∧ vc ≤ 255 ∧ vd ≤ 255 then
        some (((va * 256 + vb) * 256 + vc) * 256 + vd)
      else none
    | _, _, _, _ => none
  | _ => none

/-- Modelled from the spec: the external IP-range extraction utility
(`ExtractIpRange`, `tscore/MatcherUtils`, not in this fragment's sources)
"taking the raw string and producing start/end addresses in host byte
order"; a single address stands for the degenerate range `[ip, ip]`. -/
def ExtractIpRange (value : List Char) : Except (List Char) (Nat × Nat) :=
  match tokenize '-' value with
  | [a] =>
    match parseIPv4 a with
    | some ip => .ok (ip, ip)
    | none => .error (strL "malformed IP range")
  | [a, b] =>
    match parseIPv4 a, parseIPv4 b with
    | some ip1, some ip2 => .ok (ip1, ip2)
    | _, _ => .error (strL "malformed IP range")
  | _ => .error (strL "malformed IP range")

/-- `SrcIPMod`: start/end addresses in host order (modelled numerically). -/
structure SrcIPMod where
  start_addr : Nat
  end_addr : Nat
deriving DecidableEq

/-- `SrcIPMod::make` (lines 323–334): delegate to `ExtractIpRange`. -/
def SrcIPMod.make (value : List Char) : Except (List Char) SrcIPMod :=
  match ExtractIpRange value with
  | .error e => .error e
  | .ok (s, e) => .ok ⟨s, e⟩

/-- `SrcIPMod::check` (lines 317–322): inclusive host-order address
comparison. -/
def SrcIPMod.check (m : SrcIPMod) (req : HttpRequestData) : Bool :=
  decide (m.start_addr ≤ req.src_ip ∧ req.src_ip ≤ m.end_addr)

-- ---------------------------------------------------------------------------
-- SchemeMod
-- ---------------------------------------------------------------------------

/-- Modelled from the spec: the external well-known-string tokenizer
(`hdrtoken`, not in this fragment's sources), a fixed table of
pre-registered tokens resolvable to stable integer indices. -/
def wks_table : List (List Char) :=
  [strL "file", strL "ftp", strL "http", strL "https", strL "ws", strL "wss",
   strL "tunnel", strL "mms"]

/-- Modelled from the spec: `hdrtoken_tokenize` resolves a token
case-insensitively to its index, or a negative value when unknown. -/
def hdrtoken_tokenize (v : List Char) : Int :=
  match wks_table.findIdx? (fun t => t == v.map Char.toLower) with
  | some i => (i : Int)
  | none => -1

/-- Modelled from the spec: `hdrtoken_index_to_wks`, the inverse lookup. -/
def hdrtoken_index_to_wks (i : Int) : List Char :=
  if i < 0 then [] else wks_table.getD i.toNat []

/-- `SchemeMod`: tokenized scheme index. -/
structure SchemeMod where
  _scheme : Int
deriving DecidableEq

/-- `SchemeMod::make` (lines 383–394). -/
def SchemeMod.make (value : List Char) : Except (List Char) SchemeMod :=
  let scheme := hdrtoken_tokenize value
  if scheme < 0 then .error (strL "Unknown scheme")
  else .ok ⟨scheme⟩

/-- `SchemeMod::check` (lines 373–377): index equality against the request
URL's well-known scheme index. -/
def SchemeMod.check (m : SchemeMod) (req : HttpRequestData) : Bool :=
  decide (req.scheme_get_wksidx = m._scheme)

-- ---------------------------------------------------------------------------
-- MethodMod / PrefixMod / SuffixMod / TagMod (text modifiers)
-- ---------------------------------------------------------------------------

/-- `MethodMod` (a `TextMod`): one owned text buffer. -/
structure MethodMod where
  text : List Char
deriving DecidableEq

/-- `MethodMod::make` (lines 492–498): always succeeds. -/
def MethodMod.make (value : List Char) : Except (List Char) MethodMod :=
  .ok ⟨value⟩

/-- `MethodMod::check` (lines 486–491): length-guarded case-insensitive
prefix comparison (`strncasecmp` over the stored length). -/
def MethodMod.check (m : MethodMod) (req : HttpRequestData) : Bool :=
  let method := req.method_get
  m.text.length ≤ method.length && ciEq (method.take m.text.length) m.text

/-- `PrefixMod` (a `TextMod`). -/
structure PrefixMod where
  text : List Char
deriving DecidableEq

/-- `PrefixMod::make` (lines 534–545): strip leading slashes (because
`path_get` omits them), then store; always succeeds. -/
def PrefixMod.make (value : List Char) : Except (List Char) PrefixMod :=
  .ok ⟨value.dropWhile (fun c => c = '/')⟩

/-- `PrefixMod::check` (lines 521–533): length-guarded case-sensitive
byte-exact prefix comparison (`memcmp`) against the URL path. -/
def PrefixMod.check (m : PrefixMod) (req : HttpRequestData) : Bool :=
  let path := req.path_get
  m.text.length ≤ path.length && path.take m.text.length == m.text

/-- `SuffixMod` (a `MultiTextMod`): comma-separated tokens, empty tokens
skipped (`MultiTextMod::set`, lines 454–463). -/
structure SuffixMod where
  text_vec : List (List Char)
deriving DecidableEq

/-- `SuffixMod::make` (lines 585–591): split the value on commas; always
succeeds. -/
def SuffixMod.make (value : List Char) : Except (List Char) SuffixMod :=
  .ok ⟨tokenize ',' value⟩

/-- `SuffixMod::check` (lines 567–584): a sole `*` token matches everything;
otherwise any stored token that is a case-insensitive suffix of the path
(length-guarded) matches. -/
def SuffixMod.check (m : SuffixMod) (req : HttpRequestData) : Bool :=
  let path := req.path_get
  if m.text_vec = [['*']] then true
  else
    m.text_vec.any (fun t =>
      t.length ≤ path.length && ciEq (path.drop (path.length - t.length)) t)

/-- `TagMod` (a `TextMod`). -/
structure TagMod where
  text : List Char
deriving DecidableEq

/-- `TagMod::make` (lines 618–624): always succeeds. -/
def TagMod.make (value : List Char) : Except (List Char) TagMod :=
  .ok ⟨value⟩

/-- `TagMod::check` (lines 613–617): `strcmp(req->tag, text) == 0`, exact
case-sensitive equality.  A null request tag would be dereferenced in C;
`CheckModifiers` pre-filters that case, so it is unreachable there and
modelled as a non-match. -/
def TagMod.check (m : TagMod) (req : HttpRequestData) : Bool :=
  match req.tag with
  | some t => t == m.text
  | none => false

-- ---------------------------------------------------------------------------
-- InternalMod
-- ---------------------------------------------------------------------------

/-- `InternalMod`: the stored boolean. -/
structure InternalMod where
  flag : Bool
deriving DecidableEq

/-- `InternalMod::make` (lines 656–674): `strncasecmp("false", value, 5)`,
then `strncasecmp("true", value, 4)` — bounded comparisons, hence
case-insensitive *prefix* tests on the value; anything that starts with
neither fails. -/
def InternalMod.make (value : List Char) : Except (List Char) InternalMod :=
  if ciStartsWith (strL "false") value then .ok ⟨false⟩
  else if ciStartsWith (strL "true") value then .ok ⟨true⟩
  else .error (strL "Value must be true or false")

/-- `InternalMod::check` (lines 641–645): boolean equality with the
request's internal-transaction flag. -/
def InternalMod.check (m : InternalMod) (req : HttpRequestData) : Bool :=
  req.internal_txn == m.flag

-- ---------------------------------------------------------------------------
-- The closed Modifier variant (virtual dispatch as a sum type)
-- ---------------------------------------------------------------------------

/-- `ControlBase::Modifier`: the closed set of variants.  `prefixm` /
`suffixm` wrap `PrefixMod` / `SuffixMod` (constructor names adjusted for
tooling reasons only). -/
inductive Modifier where
  | time : TimeMod → Modifier
  | port : PortMod → Modifier
  | iport : IPortMod → Modifier
  | srcip : SrcIPMod → Modifier
  | scheme : SchemeMod → Modifier
  | method : MethodMod → Modifier
  | prefixm : PrefixMod → Modifier
  | suffixm : SuffixMod → Modifier
  | tag : TagMod → Modifier
  | internal : InternalMod → Modifier
deriving DecidableEq

/-- Virtual `type()` dispatch.  The base implementation
(`ControlBase::Modifier::type`, lines 61–65) returns `INVALID`; `TimeMod`,
`SrcIPMod`, `SchemeMod`, `MethodMod`, `PrefixMod`, `SuffixMod`, `TagMod` and
`InternalMod` override it with their own tag, while `PortMod` and `IPortMod`
declare no `type()` override (lines 176–187 and 239–250) and therefore
inherit the base `INVALID`. -/
def Modifier.type : Modifier → ModType
  | .time _ => ModType.TIME
  | .port _ => ModType.INVALID
  | .iport _ => ModType.INVALID
  | .srcip _ => ModType.SRC_IP
  | .scheme _ => ModType.SCHEME
  | .method _ => ModType.METHOD
  | .prefixm _ => ModType.PREFIX0
  | .suffixm _ => ModType.SUFFIX
  | .tag _ => ModType.TAG
  | .internal _ => ModType.INTERNAL

/-- Virtual `name()` dispatch: each variant's stable `NAME` constant. -/
def Modifier.name : Modifier → List Char
  | .time _ => strL "Time"
  | .port _ => strL "Port"
  | .iport _ => strL "IPort"
  | .srcip _ => strL "SrcIP"
  | .scheme _ => strL "Scheme"
  | .method _ => strL "Method"
  | .prefixm _ => strL "Prefix"
  | .suffixm _ => strL "Suffix"
  | .tag _ => strL "Tag"
  | .internal _ => strL "Internal"

/-- Virtual `check(request)` dispatch. -/
def Modifier.check (m : Modifier) (req : HttpRequestData) : Bool :=
  match m with
  | .time t => t.check req
  | .port p => p.check req
  | .iport p => p.check req
  | .srcip s => s.check req
  | .scheme s => s.check req
  | .method mm => mm.check req
  | .prefixm p => p.check req
  | .suffixm s => s.check req
  | .tag t => t.check req
  | .internal i => i.check req

/-- `%d`-style rendering of an `Int` (matches C `printf` `%d`/`%ld`). -/
def intStr (i : Int) : List Char := (toString i).toList

/-- Modelled from the spec: `ats_ip_ntop` (external) renders an IPv4 address
as a dotted quad.  (The stored addresses are in host order, which the real
printer does not re-swap; the numeric value stored is what is printed.) -/
def ipStr (ip : Nat) : List Char :=
  intStr (ip / 16777216 % 256) ++ strL "." ++ intStr (ip / 65536 % 256) ++
    strL "." ++ intStr (ip / 256 % 256) ++ strL "." ++ intStr (ip % 256)

/-- Virtual `print(FILE*)` dispatch: the exact bytes each variant's `print`
writes.  Single-valued variants emit `Name=value` followed by two spaces;
`SuffixMod` (via `MultiTextMod::print`, lines 446–452) emits one
`Suffix=token` group per stored token, each followed by one space. -/
def Modifier.printStr : Modifier → List Char
  | .time t => strL "Time=" ++ intStr t.start_time ++ strL "-" ++
      intStr t.end_time ++ strL "  "
  | .port p => strL "Port=" ++ intStr p.start_port ++ strL "-" ++
      intStr p.end_port ++ strL "  "
  | .iport p => strL "IPort=" ++ intStr p._port ++ strL "  "
  | .srcip s => strL "SrcIP=" ++ ipStr s.start_addr ++ strL "-" ++
      ipStr s.end_addr ++ strL "  "
  | .scheme s => strL "Scheme=" ++ hdrtoken_index_to_wks s._scheme ++ strL "  "
  | .method m => strL "Method=" ++ m.text ++ strL "  "
  | .prefixm p => strL "Prefix=" ++ p.text ++ strL "  "
  | .suffixm s => (s.text_vec.map (fun t => strL "Suffix=" ++ t ++ strL " ")).flatten
  | .tag t => strL "Tag=" ++ t.text ++ strL "  "
  | .internal i => strL "Internal=" ++
      (if i.flag then strL "true" else strL "false") ++ strL "  "

-- ---------------------------------------------------------------------------
-- ControlBase: the modifier set
-- ---------------------------------------------------------------------------

namespace ControlBase

/-- `ControlBase::findModOfType` (lines 761–771): first modifier in
insertion order whose `type()` equals `t` (null entries skipped; the model's
sets contain no nulls, which `ProcessModifiers` never inserts). -/
def findModOfType (mods : List Modifier) (t : ModType) : Option Modifier :=
  mods.find? (fun m => decide (m.type = t))

/-- `ControlBase::CheckModifiers` (lines 723–745): a header-less request
trivially matches; a tag-less request fails against a set holding a Tag
modifier; otherwise the conjunction of every modifier's `check`
(short-circuiting, null entries vacuously true). -/
def CheckModifiers (mods : List Modifier) (req : HttpRequestData) : Bool :=
  match req.hdr with
  | none => true
  | some _ =>
    if req.tag.isNone && (findModOfType mods ModType.TAG).isSome then false
    else mods.all (fun m => m.check req)

/-- `ControlBase::Print` (lines 690–709), as the bytes written to `stdout`:
nothing for an empty set, otherwise three tabs, every modifier's own
`print` output in insertion order, and a newline.  (The `"INVALID  "` text
for null entries is dead in the model, which holds no nulls.) -/
def Print (mods : List Modifier) : List Char :=
  if mods.isEmpty then []
  else strL "\t\t\t" ++ (mods.map Modifier.printStr).flatten ++ strL "\n"

end ControlBase

-- ---------------------------------------------------------------------------
-- The line processor (ProcessModifiers)
-- ---------------------------------------------------------------------------

/-- Modelled from the spec: the "fixed maximum token capacity" of a parsed
line (`MATCHER_MAX_TOKENS` from `proxy/ControlMatcher.h`, outside this
fragment's sources; 40 in the implementation). -/
def MATCHER_MAX_TOKENS : Nat := 40

/-- `matcher_line`, the generic parsed-line representation: the element
count (`num_el`, a C `int`) and the label/value token-pair columns
(`line[0][i]`, `line[1][i]`; a null pointer is `none`).  Entries past the
list's end are the array's remaining null slots. -/
structure matcher_line where
  num_el : Int
  line : List (Option (List Char) × Option (List Char))

/-- The recognized modifier labels, in the dispatch order of
`ProcessModifiers` (lines 807–829). -/
def recognizedLabels : List (List Char) :=
  [strL "port", strL "iport", strL "scheme", strL "method", strL "prefix",
   strL "suffix", strL "src_ip", strL "time", strL "tag", strL "internal"]

/-- The label dispatch of `ProcessModifiers` (lines 806–833): match the
label case-insensitively against the fixed names and run the variant's
`make`; an unmatched label is `BAD_MOD`, reported as
`errorFormats[BAD_MOD] = "Unknown modifier"`. -/
def makeByLabel (label value : List Char) : Except (List Char) Modifier :=
  if ciEq label (strL "port") then (PortMod.make value).map Modifier.port
  else if ciEq label (strL "iport") then (IPortMod.make value).map Modifier.iport
  else if ciEq label (strL "scheme") then (SchemeMod.make value).map Modifier.scheme
  else if ciEq label (strL "method") then (MethodMod.make value).map Modifier.method
  else if ciEq label (strL "prefix") then (PrefixMod.make value).map Modifier.prefixm
  else if ciEq label (strL "suffix") then (SuffixMod.make value).map Modifier.suffixm
  else if ciEq label (strL "src_ip") then (SrcIPMod.make value).map Modifier.srcip
  else if ciEq label (strL "time") then (TimeMod.make value).map Modifier.time
  else if ciEq label (strL "tag") then (TagMod.make value).map Modifier.tag
  else if ciEq label (strL "internal") then (InternalMod.make value).map Modifier.internal
  else .error (strL "Unknown modifier")

/-- The scanning loop of `ProcessModifiers` (lines 794–840) over the first
`MATCHER_MAX_TOKENS` pair slots: stop early once the remaining element count
`n_elts` reaches zero; skip consumed entries (null label); a null value with
a live label is `PARSE_FAILED`, reported as
`errorFormats[PARSE_FAILED] = "Unable to parse modifier"`; a `make` error
aborts with the callee's message; on success append the modifier and
decrement `n_elts`. -/
def processLoop :
    List (Option (List Char) × Option (List Char)) → Int → List Modifier →
      Option (List Char) × List Modifier
  | [], _, acc => (none, acc)
  | p :: rest, n, acc =>
    if n = 0 then (none, acc)
    else
      match p.1 with
      | none => processLoop rest n acc
      | some _ =>
        match p.2 with
        | none => (some (strL "Unable to parse modifier"), acc)
        | some v =>
          match makeByLabel (p.1.getD []) v with
          | .error e => (some e, acc)
          | .ok m => processLoop rest (n - 1) (acc ++ [m])

/-- `ControlBase::ProcessModifiers` (lines 773–850) as a function from the
line and the current modifier set to the returned error (null = `none`) and
the resulting set: a non-positive element count returns immediately with the
set untouched; otherwise the set is cleared, the pair slots are scanned, and
on any abort the partially built set is cleared again so the caller sees an
error message and an empty set. -/
def ProcessModifiers (line_info : matcher_line) (mods : List Modifier) :
    Option (List Char) × List Modifier :=
  if line_info.num_el ≤ 0 then (none, mods)
  else
    match processLoop (line_info.line.take MATCHER_MAX_TOKENS) line_info.num_el [] with
    | (some e, _) => (some e, [])
    | (none, acc) => (none, acc)

-- ---------------------------------------------------------------------------
-- Spec-level canonical print tokens (for the round-trip claim)
-- ---------------------------------------------------------------------------

/-- Modelled from the spec's words ("writes each modifier's own formatted
representation in insertion order", "each modifier's canonical `name=value`
token"): the canonical token group a modifier contributes to the printed
set, built from `name()` and the variant's canonical value rendering.  This
is the spec-side definition that `ControlBase.Print` is compared against. -/
def canonicalToken (m : Modifier) : List Char :=
  match m with
  | .suffixm s =>
    (s.text_vec.map (fun t => Modifier.name m ++ strL "=" ++ t ++ strL " ")).flatten
  | .time t =>
    Modifier.name m ++ strL "=" ++ intStr t.start_time ++ strL "-" ++
      intStr t.end_time ++ strL "  "
  | .port p =>
    Modifier.name m ++ strL "=" ++ intStr p.start_port ++ strL "-" ++
      intStr p.end_port ++ strL "  "
  | .iport p => Modifier.name m ++ strL "=" ++ intStr p._port ++ strL "  "
  | .srcip s =>
    Modifier.name m ++ strL "=" ++ ipStr s.start_addr ++ strL "-" ++
      ipStr s.end_addr ++ strL "  "
  | .scheme s =>
    Modifier.name m ++ strL "=" ++ hdrtoken_index_to_wks s._scheme ++ strL "  "
  | .method mm => Modifier.name m ++ strL "=" ++ mm.text ++ strL "  "
  | .prefixm p => Modifier.name m ++ strL "=" ++ p.text ++ strL "  "
  | .tag t => Modifier.name m ++ strL "=" ++ t.text ++ strL "  "
  | .internal i =>
    Modifier.name m ++ strL "=" ++
      (if i.flag then strL "true" else strL "false") ++ strL "  "

-- ---------------------------------------------------------------------------
-- Helper lemmas about the tokenizer and the numeric scanner
-- ---------------------------------------------------------------------------

theorem splitAcc_no_delim (c : Char) (cur : List Char) :
    ∀ s : List Char, c ∉ s → splitAcc c cur s = [cur.reverse ++ s]
  | [], _ => by simp [splitAcc]
  | x :: xs, h => by
    have hx : ¬x = c := fun hxc => h (hxc ▸ List.mem_cons_self x xs)
    have hxs : c ∉ xs := fun hm => h (List.mem_cons_of_mem x hm)
    simp only [splitAcc, if_neg hx]
    rw [splitAcc_no_delim c (x :: cur) xs hxs]
    simp

theorem splitAcc_delim (c : Char) (b : List Char) :
    ∀ (a : List Char) (cur : List Char), c ∉ a →
      splitAcc c cur (a ++ c :: b) = (cur.reverse ++ a) :: splitAcc c [] b
  | [], cur, _ => by simp [splitAcc]
  | x :: xs, cur, h => by
    have hx : ¬x = c := fun hxc => h (hxc ▸ List.mem_cons_self x xs)
    have hxs : c ∉ xs := fun hm => h (List.mem_cons_of_mem x hm)
    simp only [List.cons_append, splitAcc, if_neg hx, List.append_eq]
    rw [splitAcc_delim c b xs (x :: cur) hxs]
    simp

theorem tokenize_no_delim {c : Char} {s : List Char} (hne : s ≠ [])
    (h : c ∉ s) : tokenize c s = [s] := by
  unfold tokenize
  rw [splitAcc_no_delim c [] s h]
  simp [hne]

theorem tokenize_pair {c : Char} {a b : List Char} (ha : a ≠ []) (hb : b ≠ [])
    (hca : c ∉ a) (hcb : c ∉ b) : tokenize c (a ++ c :: b) = [a, b] := by
  unfold tokenize
  rw [splitAcc_delim c b a [] hca, splitAcc_no_delim c [] b hcb]
  simp [ha, hb]

theorem digit_not_ws {c : Char} (h : c.isDigit = true) : isWS c = false := by
  simp only [isWS, Bool.or_eq_false_iff, beq_eq_false_iff_ne, ne_eq]
  refine ⟨⟨⟨⟨⟨?_, ?_⟩, ?_⟩, ?_⟩, ?_⟩, ?_⟩ <;>
    (rintro rfl; exact absurd h (by decide))

theorem digit_ne_minus {c : Char} (h : c.isDigit = true) : ¬c = '-' := by
  rintro rfl; exact absurd h (by decide)

theorem digit_ne_plus {c : Char} (h : c.isDigit = true) : ¬c = '+' := by
  rintro rfl; exact absurd h (by decide)

theorem dropWhile_isWS_digits {s : List Char} (h : ∀ c ∈ s, c.isDigit = true) :
    s.dropWhile isWS = s := by
  cases s with
  | nil => rfl
  | cons x xs =>
    have := digit_not_ws (h x (List.mem_cons_self x xs))
    simp [List.dropWhile_cons, this]

theorem parseDigits_all {s : List Char} (hne : s ≠ [])
    (h : ∀ c ∈ s, c.isDigit = true) : parseDigits s = some (digitsVal s, []) := by
  unfold parseDigits
  have ht : s.takeWhile Char.isDigit = s := List.takeWhile_eq_self_iff.mpr h
  have hd : s.dropWhile Char.isDigit = [] := List.dropWhile_eq_nil_iff.mpr h
  simp only [ht, hd, if_neg hne]

/-- `sscanf`'s `%d` on a pure digit string consumes it entirely. -/
theorem parseIntArg_digits {s : List Char} (hne : s ≠ [])
    (h : ∀ c ∈ s, c.isDigit = true) :
    parseIntArg s = some ((digitsVal s : Int), []) := by
  unfold parseIntArg
  rw [dropWhile_isWS_digits h]
  cases s with
  | nil => exact absurd rfl hne
  | cons x xs =>
    have hx := h x (List.mem_cons_self x xs)
    simp only [if_neg (digit_ne_minus hx), if_neg (digit_ne_plus hx)]
    rw [parseDigits_all hne h]
    rfl

-- ---------------------------------------------------------------------------
-- Claims
-- ---------------------------------------------------------------------------

/-- C8: for every request whose structured header view is absent,
`CheckModifiers` returns true for every modifier set. -/
theorem c8_headerless_request_always_matches
    (req : HttpRequestData) (mods : List Modifier) (h : req.hdr = none) :
    ControlBase.CheckModifiers mods req = true := by
  unfold ControlBase.CheckModifiers
  rw [h]

/-- C8 witness: a concrete header-less request against a non-trivial set. -/
theorem c8_witness :
    (⟨none, none, false, 1, 0, 0, 0, 0⟩ : HttpRequestData).hdr = none ∧
      ControlBase.CheckModifiers [Modifier.port ⟨80, 80⟩]
        ⟨none, none, false, 1, 0, 0, 0, 0⟩ = true :=
  ⟨rfl, c8_headerless_request_always_matches _ [Modifier.port ⟨80, 80⟩] rfl⟩

/-- C2: a request with a header view but a null tag fails `CheckModifiers`
against any set containing a modifier of type `TAG`, regardless of the other
modifiers. -/
theorem c2_null_tag_fails_tag_rule
    (req : HttpRequestData) (mods : List Modifier) (m : Modifier)
    (hhdr : req.hdr ≠ none) (htag : req.tag = none)
    (hmem : m ∈ mods) (hty : m.type = ModType.TAG) :
    ControlBase.CheckModifiers mods req = false := by
  unfold ControlBase.CheckModifiers
  cases hh : req.hdr with
  | none => exact absurd hh hhdr
  | some hv =>
    have hfind : (ControlBase.findModOfType mods ModType.TAG).isSome = true := by
      unfold ControlBase.findModOfType
      rw [List.find?_isSome]
      exact ⟨m, hmem, by simp [hty]⟩
    simp [htag, hfind]

/-- C2 witness: a tagged rule and an otherwise fully matching untagged
request. -/
theorem c2_witness :
    ControlBase.CheckModifiers
      [Modifier.port ⟨80, 80⟩, Modifier.tag ⟨strL "x"⟩]
      ⟨some ⟨80, 2, strL "GET", strL "a"⟩, none, false, 1, 0, 0, 0, 0⟩ = false :=
  c2_null_tag_fails_tag_rule _ _ (Modifier.tag ⟨strL "x"⟩) (by decide) rfl
    (by decide) rfl

/-- C10: a line with a non-positive element count returns a null error and
leaves the set untouched; with a positive count the result does not depend
on the previous contents of the set (it is cleared first). -/
theorem c10_empty_line_frame_effect
    (li : matcher_line) (ms0 ms1 : List Modifier) :
    (li.num_el ≤ 0 → ProcessModifiers li ms0 = (none, ms0)) ∧
      (0 < li.num_el → ProcessModifiers li ms0 = ProcessModifiers li ms1) := by
  constructor
  · intro h
    unfold ProcessModifiers
    rw [if_pos h]
  · intro h
    unfold ProcessModifiers
    rw [if_neg (by omega), if_neg (by omega)]

/-- C10 witness: an empty line leaves a populated set alone; a one-element
line gives the same result from two different prior sets. -/
theorem c10_witness :
    ProcessModifiers ⟨0, []⟩ [Modifier.port ⟨1, 2⟩] = (none, [Modifier.port ⟨1, 2⟩]) ∧
      ProcessModifiers ⟨1, [(some (strL "port"), some (strL "80"))]⟩
          [Modifier.port ⟨1, 2⟩] =
        ProcessModifiers ⟨1, [(some (strL "port"), some (strL "80"))]⟩ [] :=
  ⟨(c10_empty_line_frame_effect ⟨0, []⟩ [Modifier.port ⟨1, 2⟩] []).1 (by decide),
   (c10_empty_line_frame_effect ⟨1, [(some (strL "port"), some (strL "80"))]⟩
      [Modifier.port ⟨1, 2⟩] []).2 (by decide)⟩

/-- C3: for a successfully constructed Time modifier, `check` holds exactly
when the request's local wall-clock seconds-since-midnight lie inclusively
between the stored bounds; consequently an inverted range (start > end, such
as the one built from "23:00-01:00") rejects every request. -/
theorem c3_time_check_inclusive_range
    (v : List Char) (t : TimeMod) (req : HttpRequestData)
    (hmk : TimeMod.make v = .ok t) :
    (TimeMod.check t req = true ↔
        (t.start_time ≤ localTimeOfDay req ∧ localTimeOfDay req ≤ t.end_time)) ∧
      (t.end_time < t.start_time → TimeMod.check t req = false) := by
  constructor
  · simp [TimeMod.check]
  · intro hlt
    simp only [TimeMod.check, decide_eq_false_iff_not]
    omega

/-- C3 witness: "23:00-01:00" constructs the inverted range `[82800, 3600]`
and rejects a request at local midnight-half-hour; "10:00-11:00" accepts a
request at local 10:30:00. -/
theorem c3_witness :
    TimeMod.check ⟨82800, 3600⟩ ⟨some ⟨80, 2, strL "GET", strL "a"⟩,
        none, false, 1, 0, 0, 30, 0⟩ = false ∧
      TimeMod.check ⟨36000, 39600⟩ ⟨some ⟨80, 2, strL "GET", strL "a"⟩,
        none, false, 1, 0, 10, 30, 0⟩ = true :=
  ⟨(c3_time_check_inclusive_range (strL "23:00-01:00") ⟨82800, 3600⟩ _ rfl).2
      (by decide),
   (c3_time_check_inclusive_range (strL "10:00-11:00") ⟨36000, 39600⟩ _ rfl).1.mpr
      (by decide)⟩

/-- C7: `TimeMod::make` demands exactly one range separator — a value with
none (one token) fails with "End time not specified" and one with more than
two tokens fails with "Malformed time range"; a side whose hour lies outside
0–23 fails with "Illegal hour specification" (e.g. "25:00-01:00"); a
well-formed side with hour in 0–23 and minute/second in 0–59 converts to
`(hour*60 + min)*60 + sec` seconds since midnight. -/
theorem c7_time_make_separator_and_hour_errors :
    (∀ v : List Char, v ≠ [] → '-' ∉ v →
        TimeMod.make v = .error (strL "End time not specified")) ∧
      (∀ v : List Char, 2 < (tokenize '-' v).length →
        TimeMod.make v = .error (strL "Malformed time range")) ∧
      TimeMod.make (strL "25:00-01:00") = .error (strL "Illegal hour specification") ∧
      (∀ (s : List Char) (h mn sc : Int), scanHMS s = some (h, mn, sc) →
        (h < 0 ∨ 23 < h) →
        timeOfDayToSeconds s = .error (strL "Illegal hour specification")) ∧
      (∀ (s : List Char) (h mn sc : Int), scanHMS s = some (h, mn, sc) →
        0 ≤ h → h ≤ 23 → 0 ≤ mn → mn ≤ 59 → 0 ≤ sc → sc ≤ 59 →
        timeOfDayToSeconds s = .ok ((h * 60 + mn) * 60 + sc)) := by
  refine ⟨?_, ?_, rfl, ?_, ?_⟩
  · intro v hne hnd
    simp [TimeMod.make, tokenize_no_delim hne hnd]
  · intro v hlen
    have h1 : ¬(tokenize '-' v).length = 1 := by omega
    simp [TimeMod.make, h1, hlen]
  · intro s h mn sc hscan hout
    have hc : ¬(0 ≤ h ∧ h ≤ 23) := by omega
    simp [timeOfDayToSeconds, hscan, hc]
  · intro s h mn sc hscan h1 h2 h3 h4 h5 h6
    simp [timeOfDayToSeconds, hscan, h1, h2, h3, h4, h5, h6]

/-- C7 witness: the claim's own examples, plus a concrete out-of-range hour
side and a concrete well-formed side. -/
theorem c7_witness :
    TimeMod.make (strL "10:00") = .error (strL "End time not specified") ∧
      TimeMod.make (strL "10:00-11:00-12:00") = .error (strL "Malformed time range") ∧
      timeOfDayToSeconds (strL "26:10") = .error (strL "Illegal hour specification") ∧
      timeOfDayToSeconds (strL "9:30") = .ok 34200 :=
  ⟨c7_time_make_separator_and_hour_errors.1 _ (by decide) (by decide),
   c7_time_make_separator_and_hour_errors.2.1 _ (by decide),
   c7_time_make_separator_and_hour_errors.2.2.2.1 (strL "26:10") 26 10 0 rfl
     (Or.inr (by decide)),
   c7_time_make_separator_and_hour_errors.2.2.2.2 (strL "9:30") 9 30 0 rfl
     (by decide) (by decide) (by decide) (by decide) (by decide) (by decide)⟩

/-- C1: `ProcessModifiers` never returns an error message together with a
non-empty set (on any abort the partially built set is cleared); an
unconsumed label whose value is null aborts the line with "Unable to parse
modifier", and a label matching none of the recognized modifier names aborts
it with "Unknown modifier" (leaving the set empty in both cases). -/
theorem c1_process_modifiers_error_discipline
    (li : matcher_line) (ms0 : List Modifier) :
    ((ProcessModifiers li ms0).1 = none ∨ (ProcessModifiers li ms0).2 = []) ∧
      (∀ lab rest, 0 < li.num_el → li.line = (some lab, none) :: rest →
        ProcessModifiers li ms0 = (some (strL "Unable to parse modifier"), [])) ∧
      (∀ lab v rest, 0 < li.num_el → li.line = (some lab, some v) :: rest →
        (∀ nm ∈ recognizedLabels, ciEq lab nm = false) →
        ProcessModifiers li ms0 = (some (strL "Unknown modifier"), [])) := by
  refine ⟨?_, ?_, ?_⟩
  · unfold ProcessModifiers
    by_cases h : li.num_el ≤ 0
    · rw [if_pos h]
      exact Or.inl rfl
    · rw [if_neg h]
      rcases hp : processLoop (li.line.take MATCHER_MAX_TOKENS) li.num_el [] with
        ⟨e, acc⟩
      cases e with
      | none => simp
      | some msg => simp
  · intro lab rest hpos hline
    unfold ProcessModifiers
    rw [if_neg (by omega), hline]
    have ht : ((some lab, (none : Option (List Char))) :: rest).take
        MATCHER_MAX_TOKENS = (some lab, none) :: rest.take 39 := rfl
    rw [ht]
    have h0 : ¬li.num_el = 0 := by omega
    simp [processLoop, h0]
  · intro lab v rest hpos hline hunk
    have hmk : makeByLabel lab v = .error (strL "Unknown modifier") := by
      have h1 : ciEq lab (strL "port") = false := hunk _ (by simp [recognizedLabels])
      have h2 : ciEq lab (strL "iport") = false := hunk _ (by simp [recognizedLabels])
      have h3 : ciEq lab (strL "scheme") = false := hunk _ (by simp [recognizedLabels])
      have h4 : ciEq lab (strL "method") = false := hunk _ (by simp [recognizedLabels])
      have h5 : ciEq lab (strL "prefix") = false := hunk _ (by simp [recognizedLabels])
      have h6 : ciEq lab (strL "suffix") = false := hunk _ (by simp [recognizedLabels])
      have h7 : ciEq lab (strL "src_ip") = false := hunk _ (by simp [recognizedLabels])
      have h8 : ciEq lab (strL "time") = false := hunk _ (by simp [recognizedLabels])
      have h9 : ciEq lab (strL "tag") = false := hunk _ (by simp [recognizedLabels])
      have h10 : ciEq lab (strL "internal") = false :=
        hunk _ (by simp [recognizedLabels])
      simp [makeByLabel, h1, h2, h3, h4, h5, h6, h7, h8, h9, h10]
    unfold ProcessModifiers
    rw [if_neg (by omega), hline]
    have ht : ((some lab, some v) :: rest).take MATCHER_MAX_TOKENS
        = (some lab, some v) :: rest.take 39 := rfl
    rw [ht]
    have h0 : ¬li.num_el = 0 := by omega
    simp [processLoop, h0, hmk]

/-- C1 witness: a null value aborts with "Unable to parse modifier"; the
unknown label "foo" (value "bar") aborts with "Unknown modifier" and an
empty set. -/
theorem c1_witness :
    ProcessModifiers ⟨1, [(some (strL "port"), none)]⟩ [] =
        (some (strL "Unable to parse modifier"), []) ∧
      ProcessModifiers ⟨1, [(some (strL "foo"), some (strL "bar"))]⟩ [] =
        (some (strL "Unknown modifier"), []) :=
  ⟨(c1_process_modifiers_error_discipline ⟨1, [(some (strL "port"), none)]⟩ []).2.1
      _ [] (by decide) rfl,
   (c1_process_modifiers_error_discipline
      ⟨1, [(some (strL "foo"), some (strL "bar"))]⟩ []).2.2
      _ _ [] (by decide) rfl (by decide)⟩

/-- C4 counterexample: a successfully constructed Port modifier's `type()`
is `INVALID`, not `PORT` — `PortMod` (and `IPortMod`) never override the
base `type()`. -/
theorem c4_counterexample :
    PortMod.make (strL "80") = .ok ⟨80, 80⟩ ∧
      (Modifier.port ⟨80, 80⟩).type = ModType.INVALID ∧
      ModType.INVALID ≠ ModType.PORT ∧
      (Modifier.iport ⟨80⟩).type = ModType.INVALID :=
  ⟨rfl, rfl, by decide, rfl⟩

/-- C4 amended: the variants that override `type()` (Time, SrcIP, Scheme,
Method, Prefix, Suffix, Tag, Internal) return their own tag, while Port and
IPort inherit the base implementation and return `INVALID`;
`findModOfType t` returns the first modifier in insertion order whose
`type()` equals `t` (hence it locates variants of the overriding kinds but
can never locate a Port or IPort instance under `PORT`/`IPORT`). -/
theorem c4_amended_type_tags_and_find :
    (∀ t : TimeMod, (Modifier.time t).type = ModType.TIME) ∧
      (∀ s : SrcIPMod, (Modifier.srcip s).type = ModType.SRC_IP) ∧
      (∀ s : SchemeMod, (Modifier.scheme s).type = ModType.SCHEME) ∧
      (∀ m : MethodMod, (Modifier.method m).type = ModType.METHOD) ∧
      (∀ p : PrefixMod, (Modifier.prefixm p).type = ModType.PREFIX0) ∧
      (∀ s : SuffixMod, (Modifier.suffixm s).type = ModType.SUFFIX) ∧
      (∀ t : TagMod, (Modifier.tag t).type = ModType.TAG) ∧
      (∀ i : InternalMod, (Modifier.internal i).type = ModType.INTERNAL) ∧
      (∀ p : PortMod, (Modifier.port p).type = ModType.INVALID) ∧
      (∀ p : IPortMod, (Modifier.iport p).type = ModType.INVALID) ∧
      (∀ (xs ys : List Modifier) (m : Modifier) (t : ModType),
        m.type = t → (∀ m2 ∈ xs, m2.type ≠ t) →
        ControlBase.findModOfType (xs ++ m :: ys) t = some m) := by
  refine ⟨fun _ => rfl, fun _ => rfl, fun _ => rfl, fun _ => rfl, fun _ => rfl,
    fun _ => rfl, fun _ => rfl, fun _ => rfl, fun _ => rfl, fun _ => rfl, ?_⟩
  intro xs ys m t hm hxs
  induction xs with
  | nil =>
    simp only [List.nil_append]
    unfold ControlBase.findModOfType
    exact List.find?_cons_of_pos _ (by simp [hm])
  | cons x xs ih =>
    have hx : x.type ≠ t := hxs x (List.mem_cons_self x xs)
    have hxs2 : ∀ m2 ∈ xs, m2.type ≠ t := fun m2 hm2 =>
      hxs m2 (List.mem_cons_of_mem x hm2)
    simp only [List.cons_append]
    unfold ControlBase.findModOfType
    rw [List.find?_cons_of_neg _ (by simp [hx])]
    exact ih hxs2

/-- C4 witness: `findModOfType` locates the first Tag modifier behind a
non-matching head. -/
theorem c4_witness :
    ControlBase.findModOfType
        [Modifier.port ⟨1, 2⟩, Modifier.tag ⟨strL "x"⟩, Modifier.tag ⟨strL "y"⟩]
        ModType.TAG = some (Modifier.tag ⟨strL "x"⟩) :=
  c4_amended_type_tags_and_find.2.2.2.2.2.2.2.2.2.2
    [Modifier.port ⟨1, 2⟩] [Modifier.tag ⟨strL "y"⟩] (Modifier.tag ⟨strL "x"⟩)
    ModType.TAG rfl (by decide)

/-- C5 counterexample: "falsehood" is neither "true" nor "false" under full
case-insensitive comparison, yet `InternalMod::make` accepts it (flag
`false`) — the `strncasecmp` calls bound the comparison length, making it a
prefix test. -/
theorem c5_counterexample :
    InternalMod.make (strL "falsehood") = .ok ⟨false⟩ ∧
      ciEq (strL "falsehood") (strL "false") = false ∧
      ciEq (strL "falsehood") (strL "true") = false :=
  ⟨rfl, by decide, by decide⟩

/-- C5 amended: `InternalMod::make` succeeds iff the raw value begins
case-insensitively with the literal "false" (tested first, flag `false`) or
"true" (flag `true`); trailing characters are ignored.  Any other value
fails with "Value must be true or false".  `check` returns true iff the
request's internal-transaction flag equals the stored boolean. -/
theorem c5_amended_internal_prefix_semantics (value : List Char) :
    (ciStartsWith (strL "false") value = true →
        InternalMod.make value = .ok ⟨false⟩) ∧
      (ciStartsWith (strL "false") value = false →
        ciStartsWith (strL "true") value = true →
        InternalMod.make value = .ok ⟨true⟩) ∧
      (ciStartsWith (strL "false") value = false →
        ciStartsWith (strL "true") value = false →
        InternalMod.make value = .error (strL "Value must be true or false")) ∧
      (∀ (fl : Bool) (req : HttpRequestData),
        InternalMod.check ⟨fl⟩ req = true ↔ req.internal_txn = fl) := by
  refine ⟨?_, ?_, ?_, ?_⟩
  · intro h
    simp [InternalMod.make, h]
  · intro h1 h2
    simp [InternalMod.make, h1, h2]
  · intro h1 h2
    simp [InternalMod.make, h1, h2]
  · intro fl req
    simp [InternalMod.check]

/-- C5 witness: "TRUE" is accepted case-insensitively, "yes" is rejected
with the exact message, and `check` agrees with flag equality on a concrete
internal request. -/
theorem c5_witness :
    InternalMod.make (strL "TRUE") = .ok ⟨true⟩ ∧
      InternalMod.make (strL "yes") = .error (strL "Value must be true or false") ∧
      InternalMod.check ⟨true⟩ ⟨some ⟨80, 2, strL "GET", strL "a"⟩,
        none, true, 1, 0, 0, 0, 0⟩ = true :=
  ⟨(c5_amended_internal_prefix_semantics (strL "TRUE")).2.1 (by decide) (by decide),
   (c5_amended_internal_prefix_semantics (strL "yes")).2.2.1 (by decide) (by decide),
   ((c5_amended_internal_prefix_semantics (strL "TRUE")).2.2.2 true _).mpr rfl⟩

/-- C6 counterexample: "443-80" does fail, but with the message
"Malformed Range: end port < start port", not the claimed
"end port < start port". -/
theorem c6_counterexample :
    PortMod.make (strL "443-80") =
        .error (strL "Malformed Range: end port < start port") ∧
      strL "Malformed Range: end port < start port" ≠ strL "end port < start port" :=
  ⟨rfl, by decide⟩

/-- C6 amended: `PortMod::make` on a plain numeric value `N` stores the
degenerate range `[N, N]`; on `N-M` it stores `[N, M]` when `M ≥ N` and
fails with "Malformed Range: end port < start port" when `M < N`; `check`
accepts exactly the ports inside the stored inclusive range. -/
theorem c6_amended_port_range_semantics :
    (∀ ds : List Char, ds ≠ [] → (∀ c ∈ ds, c.isDigit = true) →
        PortMod.make ds = .ok ⟨(digitsVal ds : Int), (digitsVal ds : Int)⟩) ∧
      (∀ a b : List Char, a ≠ [] → b ≠ [] →
        (∀ c ∈ a, c.isDigit = true) → (∀ c ∈ b, c.isDigit = true) →
        (((digitsVal a : Int) ≤ (digitsVal b : Int)) →
          PortMod.make (a ++ '-' :: b) =
            .ok ⟨(digitsVal a : Int), (digitsVal b : Int)⟩) ∧
        (((digitsVal b : Int) < (digitsVal a : Int)) →
          PortMod.make (a ++ '-' :: b) =
            .error (strL "Malformed Range: end port < start port"))) ∧
      (∀ (p : PortMod) (req : HttpRequestData),
        PortMod.check p req = true ↔
          (p.start_port ≤ req.port_get ∧ req.port_get ≤ p.end_port)) := by
  refine ⟨?_, ?_, ?_⟩
  · intro ds hne hd
    have hnd : ('-' : Char) ∉ ds := fun hm => absurd (hd _ hm) (by decide)
    have ht := tokenize_no_delim hne hnd
    simp [PortMod.make, ht, parseIntArg_digits hne hd]
  · intro a b ha hb hda hdb
    have hnda : ('-' : Char) ∉ a := fun hm => absurd (hda _ hm) (by decide)
    have hndb : ('-' : Char) ∉ b := fun hm => absurd (hdb _ hm) (by decide)
    have ht := tokenize_pair ha hb hnda hndb
    constructor
    · intro hle
      have h2 : ¬(digitsVal b : Int) < (digitsVal a : Int) := not_lt.mpr hle
      simp [PortMod.make, ht, parseIntArg_digits ha hda,
        parseIntArg_digits hb hdb, h2]
    · intro hlt
      simp [PortMod.make, ht, parseIntArg_digits ha hda,
        parseIntArg_digits hb hdb, hlt]
  · intro p req
    simp [PortMod.check]

/-- C6 witness: "80" stores `[80, 80]`; "80-443" stores `[80, 443]` and
matches port 100 but not port 79; "443-80" fails with the exact message. -/
theorem c6_witness :
    PortMod.make (strL "80") = .ok ⟨80, 80⟩ ∧
      PortMod.make (strL "80-443") = .ok ⟨80, 443⟩ ∧
      PortMod.make (strL "443-80") =
        .error (strL "Malformed Range: end port < start port") ∧
      PortMod.check ⟨80, 443⟩ ⟨some ⟨100, 2, strL "GET", strL "a"⟩,
        none, false, 1, 0, 0, 0, 0⟩ = true ∧
      PortMod.check ⟨80, 443⟩ ⟨some ⟨79, 2, strL "GET", strL "a"⟩,
        none, false, 1, 0, 0, 0, 0⟩ ≠ true :=
  ⟨c6_amended_port_range_semantics.1 (strL "80") (by decide) (by decide),
   (c6_amended_port_range_semantics.2.1 (strL "80") (strL "443") (by decide)
      (by decide) (by decide) (by decide)).1 (by decide),
   (c6_amended_port_range_semantics.2.1 (strL "443") (strL "80") (by decide)
      (by decide) (by decide) (by decide)).2 (by decide),
   (c6_amended_port_range_semantics.2.2 ⟨80, 443⟩ _).mpr (by decide),
   fun h => absurd ((c6_amended_port_range_semantics.2.2 ⟨80, 443⟩ _).mp h)
     (by decide)⟩

/-- Every variant's `print` output coincides with its spec-level canonical
`name=value` token group. -/
theorem printStr_eq_canonicalToken (m : Modifier) :
    Modifier.printStr m = canonicalToken m := by
  cases m <;> rfl

/-- C9 counterexample: the accepted line `port=80` builds the set
`[Port(80,80)]`, but printing that set emits `Port=80-80` — the parsed
line's token `port=80` appears nowhere in the output, so print does not
reproduce the line's modifiers textually. -/
theorem c9_counterexample :
    ProcessModifiers ⟨1, [(some (strL "port"), some (strL "80"))]⟩ [] =
        (none, [Modifier.port ⟨80, 80⟩]) ∧
      ControlBase.Print [Modifier.port ⟨80, 80⟩] = strL "\t\t\tPort=80-80  \n" ∧
      ¬ strL "port=80" <:+: ControlBase.Print [Modifier.port ⟨80, 80⟩] :=
  ⟨rfl, rfl, by decide⟩

/-- C9 amended: for every line that `ProcessModifiers` accepts, printing the
resulting set emits three tabs, then — in insertion order — each modifier's
canonical `name=value` token group (the variant's own formatted rendering of
its stored data, e.g. `Port=80-80` for the single value `80`), then a
newline; the canonical token need not reproduce the parsed line's
`label=value` text. -/
theorem c9_amended_print_canonical_tokens
    (li : matcher_line) (ms0 ms : List Modifier)
    (hpos : 0 < li.num_el) (hacc : ProcessModifiers li ms0 = (none, ms)) :
    ControlBase.Print ms =
      if ms.isEmpty then []
      else strL "\t\t\t" ++ (ms.map canonicalToken).flatten ++ strL "\n" := by
  unfold ControlBase.Print
  rw [show Modifier.printStr = canonicalToken from funext printStr_eq_canonicalToken]

/-- C9 witness: the two-modifier line `port=80 suffix=.html,.htm` prints its
canonical token groups in insertion order. -/
theorem c9_witness :
    ControlBase.Print [Modifier.port ⟨80, 80⟩,
        Modifier.suffixm ⟨[strL ".html", strL ".htm"]⟩] =
      strL "\t\t\tPort=80-80  Suffix=.html Suffix=.htm \n" :=
  (c9_amended_print_canonical_tokens
      ⟨2, [(some (strL "port"), some (strL "80")),
           (some (strL "suffix"), some (strL ".html,.htm"))]⟩ []
      [Modifier.port ⟨80, 80⟩, Modifier.suffixm ⟨[strL ".html", strL ".htm"]⟩]
      (by decide) rfl).trans (by decide)
